import Mathlib

/-!
Shallow embedding of the rustui repository: the command type shared by the
producer threads and the UI consumer (src/cmds.rs), the fan-in merge of
receivers (src/cmds.rs), the pipewire worker lifecycle coordinator
(src/pwrap.rs) and the application state machine (src/app.rs).

Channels and threads are embedded as explicit lists of messages and
explicit interleaving schedules; a Rust panic is embedded as the value
none (for Option-returning functions), and a fallible Rust Result is
embedded as Except.
-/

namespace Rustui

/-- Key event kinds emitted by crossterm (Press, Release, Repeat). -/
inductive KeyEventKind where
  | Press
  | Release
  | Repeat
deriving DecidableEq, Repr

/-- Key codes; the application matches on character keys and the two arrow
keys, every other code falls to the wildcard arm, so all remaining
crossterm codes are collapsed into OtherCode. -/
inductive KeyCode where
  | Char (c : Char)
  | Left
  | Right
  | OtherCode
deriving DecidableEq, Repr

/-- A decoded terminal key event: the crossterm KeyEvent record, reduced to
the two fields the repository reads (code and kind); modifiers and state
are never inspected by the code and are omitted. -/
structure KeyEvent where
  code : KeyCode
  kind : KeyEventKind
deriving DecidableEq, Repr

/-- The command type of src/cmds.rs: Terminate, IsUp, IsDown,
KeyPress(KeyEvent), Msg(String). The Cmd of src/chwrap.rs is the same
type without the KeyPress variant; the worker code only ever constructs
IsUp, IsDown and Msg, so the single superset type embeds both. -/
inductive Cmd where
  | Terminate
  | IsUp
  | IsDown
  | KeyPress (kp : KeyEvent)
  | Msg (s : String)
deriving DecidableEq, Repr

/-! ## Command bus: combine_receivers (src/cmds.rs, lines 17 to 34)

combine_receivers spawns one forwarding thread per input receiver; each
thread repeatedly takes the next command from its receiver and sends it,
unmodified, to the shared output channel. The output observed by the
consumer is therefore some interleaving of the two input streams, chosen
by thread scheduling. The schedule is embedded explicitly: a list of
booleans, each entry naming which forwarding thread delivers next (true
for the first receiver, false for the second); when one stream is
exhausted, or the schedule runs out, the remaining items drain in their
own order. -/

/-- Output of combine_receivers under an explicit arrival schedule. -/
def mergeBySchedule : List Bool → List Cmd → List Cmd → List Cmd
  | [], xs, ys => xs ++ ys
  | true :: s, xs, ys =>
    match xs with
    | [] => ys
    | x :: xt => x :: mergeBySchedule s xt ys
  | false :: s, xs, ys =>
    match ys with
    | [] => xs
    | y :: yt => y :: mergeBySchedule s xs yt

/-! ## combine_multiple_receivers (src/cmds.rs, lines 36 to 47)

The function matches the length of the vector against 2: fewer than two
receivers is a panic (embedded as none); exactly two is
combine_receivers(recvs.remove(1), recvs.remove(0)); more than two
removes the last receiver and recurses on the rest, merging the removed
receiver with the recursive result. Only the call structure matters for
the safety claim, so receivers are embedded as an inductive tree: a leaf
per raw receiver and a node per combine_receivers call. -/

/-- A receiver endpoint: either one of the raw input receivers handed to
combine_multiple_receivers, or the merged receiver returned by a
combine_receivers call on two endpoints. -/
inductive Recv where
  | source (id : Nat)
  | comb (a b : Recv)
deriving DecidableEq, Repr

/-- combine_receivers at the endpoint level: returns the merged receiver
of its two arguments. -/
def combine_receivers (a b : Recv) : Recv := Recv.comb a b

/-- combine_multiple_receivers from src/cmds.rs; the panic arm for fewer
than two receivers is embedded as none. In the greater-than-two arm Rust
evaluates recvs.remove(n-1) first (taking the last element) and then
recurses on the remaining prefix. -/
def combine_multiple_receivers (rs : List Recv) : Option Recv :=
  if _h : rs.length < 2 then none
  else if rs.length = 2 then
    match rs with
    | a :: b :: _ => some (combine_receivers b a)
    | _ => none
  else
    match rs.getLast?, combine_multiple_receivers rs.dropLast with
    | some last, some inner => some (combine_receivers last inner)
    | _, _ => none
termination_by rs.length
decreasing_by
  simp [List.length_dropLast]
  omega

/-! ## Worker lifecycle coordinator (src/pwrap.rs)

Pipewire::worker runs on a dedicated thread. It first builds the
pipewire connection (Pipewire::new), panicking via expect on failure;
it then attaches a callback to the main loop that, on an inbound
Terminate, quits the main loop and sends IsDown on the mailbox (every
other inbound command is ignored); it then sends IsUp on the mailbox and
blocks in the main loop run call. -/

/-- Worker-thread state: whether the main loop quit has been requested,
and the sequence of commands sent on the mailbox so far. -/
structure WorkerState where
  quit : Bool
  outbox : List Cmd
deriving DecidableEq, Repr

/-- The callback that Pipewire::worker attaches to the pipewire channel
receiver: on Terminate it calls mainloop.quit() and sends IsDown on the
mailbox; every other command is ignored. -/
def pw_callback (st : WorkerState) (cmd : Cmd) : WorkerState :=
  match cmd with
  | Cmd.Terminate => { quit := true, outbox := st.outbox ++ [Cmd.IsDown] }
  | _ => st

/-- Modelled from the spec: the pipewire MainLoop run call is outside the
repository. Per the external-interface contract it blocks dispatching
queued inbound control messages to the attached callback one at a time
and returns once a stop has been requested, without dispatching further
queued messages after the stop request. -/
def main_loop_run (st : WorkerState) : List Cmd → WorkerState
  | [] => st
  | c :: cs => if st.quit then st else main_loop_run (pw_callback st c) cs

/-- Pipewire::worker after a successful Pipewire::new: it sends IsUp on
the mailbox, then runs the main loop over the inbound control commands;
the result is the full sequence of mailbox messages the worker thread
ever sends. -/
def worker (inbound : List Cmd) : List Cmd :=
  (main_loop_run { quit := false, outbox := [Cmd.IsUp] } inbound).outbox

/-- Pipewire::worker including the fallible Pipewire::new call: on an
init error the source calls expect, so the worker thread panics before
sending anything on the mailbox (embedded as none: the mailbox sender is
dropped with no message ever sent). -/
def workerInit (init : Except String Unit) (inbound : List Cmd) :
    Option (List Cmd) :=
  match init with
  | Except.error _ => none
  | Except.ok _ => some (worker inbound)

/-- Display text of the Rust RecvError returned when the mailbox sender
has been dropped with no message queued. -/
def recvClosedMsg : String := "receiving on an empty and disconnected channel"

/-- Debug rendering of a Cmd, mirroring the derived Rust Debug
implementation as used by the format string in Pipewire::spawn; the
rendering of the KeyPress and Msg payloads is abbreviated, which no
claim depends on. -/
def cmdDebug : Cmd → String
  | Cmd.Terminate => "Terminate"
  | Cmd.IsUp => "IsUp"
  | Cmd.IsDown => "IsDown"
  | Cmd.KeyPress _ => "KeyPress(..)"
  | Cmd.Msg s => "Msg(" ++ s ++ ")"

/-- The startup handshake match in Pipewire::spawn, applied to the first
event observed on the mailbox: some c is a received message, none is a
closed channel. Ok(Cmd::IsUp) succeeds; Ok(Cmd::Msg(s)) returns Err(s);
any other message returns a formatted unexpected-message error; a
receive error returns a formatted receiver error. -/
def spawnWait : Option Cmd → Except String Unit
  | some Cmd.IsUp => Except.ok ()
  | some (Cmd.Msg s) => Except.error s
  | some c => Except.error ("Unexpected message from worker: " ++ cmdDebug c)
  | none => Except.error ("Receiver error: " ++ recvClosedMsg)

/-- Pipewire::spawn: launches the worker thread (with the given init
outcome and inbound control stream) and blocks on the first mailbox
event; the returned handles are abstracted away, so the embedded result
is the success or error outcome of spawn. -/
def spawn (init : Except String Unit) (inbound : List Cmd) :
    Except String Unit :=
  match workerInit init inbound with
  | none => spawnWait none
  | some msgs => spawnWait msgs.head?

/-! ## Application state machine (src/app.rs)

The App struct holds a u8 counter, the want_exit, exit and idle flags,
the sources list, the message log, the pipewire control sender and the
merged receiver. The two channel endpoints are embedded as effects: the
commands a handler sends on pw_send are returned alongside the updated
state, and the merged receiver is fed in as an explicit event. The
counter is embedded as a Nat carrying u8 semantics: incrementing 255
overflows, which panics in a debug build (embedded as none). -/

/-- The App state of src/app.rs, channel endpoints abstracted away. -/
structure App where
  counter : Nat
  want_exit : Bool
  exit : Bool
  idle : Bool
  sources : List Nat
  messages : List String
deriving DecidableEq, Repr

/-- The field values App::new assigns after its spawn and channel setup
succeed: counter 1, idle true, want_exit true, exit false, empty
sources, a single initialization message. -/
def appNew : App :=
  { counter := 1
    want_exit := true
    exit := false
    idle := true
    sources := []
    messages := ["App initialized"] }

/-- App::increment_counter: the counter field is a u8 and the source adds
one with no guard, so 255 overflows (a panic in a debug build, embedded
as none). -/
def increment_counter (c : Nat) : Option Nat :=
  if c + 1 ≤ 255 then some (c + 1) else none

/-- App::decrement_counter: subtracts one only when the counter is
strictly positive, otherwise leaves it unchanged. -/
def decrement_counter (c : Nat) : Nat :=
  if c > 0 then c - 1 else c

/-- App::exit as called from the q key: sends Terminate on pw_send
(result ignored) and sets want_exit. Returned alongside the state is the
list of commands sent on pw_send. -/
def appExit (st : App) : App × List Cmd :=
  ({ st with want_exit := true }, [Cmd.Terminate])

/-- App::handle_key_event: dispatch on the key code only (the kind field
is never read here); q exits, i toggles idle, m pushes a log line, z
sends Terminate on pw_send, Left decrements, Right increments (none on
u8 overflow), anything else is ignored. -/
def handle_key_event (st : App) (key_event : KeyEvent) :
    Option (App × List Cmd) :=
  match key_event.code with
  | KeyCode.Char c =>
    if c = 'q' then some (appExit st)
    else if c = 'i' then some ({ st with idle := !st.idle }, [])
    else if c = 'm' then
      some ({ st with messages := st.messages ++ ["Pressed a key"] }, [])
    else if c = 'z' then some (st, [Cmd.Terminate])
    else some (st, [])
  | KeyCode.Left =>
    some ({ st with counter := decrement_counter st.counter }, [])
  | KeyCode.Right =>
    match increment_counter st.counter with
    | some n => some ({ st with counter := n }, [])
    | none => none
  | KeyCode.OtherCode => some (st, [])

/-- App::handle_cmd: Terminate and IsUp are ignored; IsDown takes the
clean-exit branch when want_exit is set (pushes the clean-shutdown
message and sets exit) and panics otherwise (embedded as none); KeyPress
goes to handle_key_event; Msg appends to the message log. -/
def handle_cmd (st : App) (cmd : Cmd) : Option (App × List Cmd) :=
  match cmd with
  | Cmd.Terminate => some (st, [])
  | Cmd.IsUp => some (st, [])
  | Cmd.IsDown =>
    if st.want_exit then
      some ({ st with
              messages := st.messages ++ ["Pipewire went down properly"]
              exit := true }, [])
    else none
  | Cmd.KeyPress kp => handle_key_event st kp
  | Cmd.Msg s => some ({ st with messages := st.messages ++ [s] }, [])

/-- One outcome of recv_timeout on the merged receiver: a delivered
command, a tick timeout, or a disconnected channel. -/
inductive RecvEvent where
  | msg (c : Cmd)
  | timeout
  | disconnected
deriving DecidableEq, Repr

/-- App::update: a delivered command goes to handle_cmd, a timeout is Ok
with nothing done, a disconnection panics (embedded as none). -/
def update (st : App) (e : RecvEvent) : Option (App × List Cmd) :=
  match e with
  | RecvEvent.msg c => handle_cmd st c
  | RecvEvent.timeout => some (st, [])
  | RecvEvent.disconnected => none

/-- The while loop of App::run over a finite trace of receive events:
each iteration first checks the exit flag and stops when it is set,
otherwise performs one update (draw has no effect on the state). The
result accumulates the final state and every command sent on pw_send;
none is a panic in some iteration. -/
def runApp (st : App) : List RecvEvent → Option (App × List Cmd)
  | [] => some (st, [])
  | e :: es =>
    if st.exit then some (st, [])
    else
      match update st e with
      | none => none
      | some (st2, out) =>
        match runApp st2 es with
        | none => none
        | some (st3, rest) => some (st3, out ++ rest)

/-! ## Terminal input relay

src/app.rs terminal_eventthread loops on event::read(); every
Event::Key is forwarded on the channel as Cmd::KeyPress with no check of
the key event kind; every non-Key event is dropped. src/util.rs
App::handle_events, in contrast, forwards a key event only when its kind
is Press. -/

/-- A raw crossterm terminal event: a key event, or any of the non-key
events (mouse, resize, focus, paste), which the repository never
inspects further. -/
inductive TermEvent where
  | Key (ke : KeyEvent)
  | OtherEvent
deriving DecidableEq, Repr

/-- The loop body of terminal_eventthread in src/app.rs: the command it
forwards for one terminal event, none when the event is dropped. Every
Event::Key is forwarded regardless of its kind. -/
def terminal_eventthread_forward : TermEvent → Option Cmd
  | TermEvent.Key ke => some (Cmd.KeyPress ke)
  | TermEvent.OtherEvent => none

/-- The event filter of App::handle_events in src/util.rs: a key event is
passed to handle_key_event only when its kind is Press. -/
def handle_events_filter : TermEvent → Option KeyEvent
  | TermEvent.Key ke =>
    if ke.kind = KeyEventKind.Press then some ke else none
  | TermEvent.OtherEvent => none

/-! ## Theorems -/

/-- C2: Pipewire::spawn returns Ok if and only if the first event on the
mailbox is IsUp; spawnWait is a total function, so every other first
message, and channel closure before any message, yields the Except.error
alternative rather than a panic; the closed-channel case is stated
explicitly. -/
theorem c2_spawn_ok_iff_first_isup (fst : Option Cmd) :
    (spawnWait fst = Except.ok () ↔ fst = some Cmd.IsUp) ∧
    spawnWait none = Except.error ("Receiver error: " ++ recvClosedMsg) := by
  refine ⟨?_, rfl⟩
  cases fst with
  | none => simp [spawnWait]
  | some c => cases c <;> simp [spawnWait]

/-- C5 counterexample: when the worker init fails with the payload
"connect failed", spawn does return an error synchronously, but the
error is the mailbox-closure message and does not carry the payload
"connect failed" (the worker thread panics via expect instead of sending
the init error on the mailbox). -/
theorem c5_connect_error_not_carried :
    spawn (Except.error "connect failed") [] =
      Except.error ("Receiver error: " ++ recvClosedMsg) ∧
    ¬ List.IsInfix ("connect failed".toList)
        (("Receiver error: " ++ recvClosedMsg).toList) := by
  exact ⟨rfl, by decide⟩

/-- C5 amended: on any worker init failure, spawn returns synchronously
an error result (so the caller is not left blocked and the worker thread
does not reach the event loop), but the error it returns is the
receiver-closed message, not the init error payload. -/
theorem c5_init_failure_returns_closed_err (e : String)
    (inbound : List Cmd) :
    spawn (Except.error e) inbound =
      Except.error ("Receiver error: " ++ recvClosedMsg) := rfl

/-- C7 counterexample: incrementing the counter at 255 does not increase
it by one; the u8 addition overflows (a panic in a debug build), so the
counter is not unbounded upward. -/
theorem c7_increment_overflow_at_255 :
    increment_counter 255 = none := rfl

/-- C7 amended: for every starting counter value below 255, an increment
command increases the counter by exactly one; at 255 the u8 addition
overflows, so the counter is bounded above by 255. -/
theorem c7_increment_below_255 (c : Nat) (h : c < 255) :
    increment_counter c = some (c + 1) := by
  simp [increment_counter]
  omega

/-- C7 amended, witness at counter 7. -/
theorem c7_increment_below_255_witness :
    increment_counter 7 = some 8 :=
  c7_increment_below_255 7 (by decide)

/-- C8: with the counter at zero, a Left key press leaves the counter at
zero and a Right key press makes it one; with any strictly positive
counter, decrement_counter decreases it by exactly one. -/
theorem c8_counter_boundary (st : App) (c : Nat) (h0 : st.counter = 0)
    (hc : 0 < c) :
    (handle_cmd st (Cmd.KeyPress ⟨KeyCode.Left, KeyEventKind.Press⟩)).map
        (fun p => p.1.counter) = some 0 ∧
    (handle_cmd st (Cmd.KeyPress ⟨KeyCode.Right, KeyEventKind.Press⟩)).map
        (fun p => p.1.counter) = some 1 ∧
    decrement_counter c = c - 1 := by
  refine ⟨?_, ?_, ?_⟩
  · simp [handle_cmd, handle_key_event, decrement_counter, h0]
  · simp [handle_cmd, handle_key_event, increment_counter, h0]
  · simp [decrement_counter, hc]

/-- C8 witness: the initial state with the counter set to zero, and the
concrete positive counter value three. -/
theorem c8_counter_boundary_witness :
    (handle_cmd { appNew with counter := 0 }
        (Cmd.KeyPress ⟨KeyCode.Left, KeyEventKind.Press⟩)).map
        (fun p => p.1.counter) = some 0 ∧
    (handle_cmd { appNew with counter := 0 }
        (Cmd.KeyPress ⟨KeyCode.Right, KeyEventKind.Press⟩)).map
        (fun p => p.1.counter) = some 1 ∧
    decrement_counter 3 = 3 - 1 :=
  c8_counter_boundary { appNew with counter := 0 } 3 rfl (by decide)

/-- C9: when recv_timeout expires with no message, update returns Ok,
the App state is returned unchanged in every field, and no command is
sent. -/
theorem c9_timeout_preserves_state (st : App) :
    update st RecvEvent.timeout = some (st, []) := rfl

/-- C1: against the claim, a run whose first received command is IsDown,
with no Terminate ever issued by the state machine, does not panic: it
takes the clean-exit branch, because App::new initializes want_exit to
true and nothing ever resets it. The run reaches the exit state with an
empty list of sent commands, so the clean exit is reached without any
self-issued Terminate. -/
theorem c1_isdown_without_terminate_exits_cleanly :
    appNew.want_exit = true ∧
    runApp appNew [RecvEvent.msg Cmd.IsDown] =
      some ({ appNew with
              exit := true
              messages := ["App initialized",
                           "Pipewire went down properly"] }, []) := by
  exact ⟨rfl, rfl⟩

/-- C6: against the claim, the relay loop of terminal_eventthread in
src/app.rs forwards a key event whose kind is Release unchanged as a
KeyPress command (it never inspects the kind), while the filter of
App::handle_events in src/util.rs drops the same event. -/
theorem c6_release_event_forwarded :
    terminal_eventthread_forward
        (TermEvent.Key ⟨KeyCode.Right, KeyEventKind.Release⟩) =
      some (Cmd.KeyPress ⟨KeyCode.Right, KeyEventKind.Release⟩) ∧
    handle_events_filter
        (TermEvent.Key ⟨KeyCode.Right, KeyEventKind.Release⟩) = none := by
  exact ⟨rfl, rfl⟩

/-- C3: under every arrival schedule, the merged output of
combine_receivers contains each input stream as a subsequence in its
original emission order: neither producer is ever reordered. -/
theorem c3_merge_preserves_producer_order (s : List Bool)
    (xs ys : List Cmd) :
    List.Sublist xs (mergeBySchedule s xs ys) ∧
    List.Sublist ys (mergeBySchedule s xs ys) := by
  induction s generalizing xs ys with
  | nil =>
    exact ⟨List.sublist_append_left xs ys, List.sublist_append_right xs ys⟩
  | cons b s ih =>
    cases b with
    | true =>
      cases xs with
      | nil =>
        exact ⟨List.nil_sublist _, List.Sublist.refl _⟩
      | cons x xt =>
        have h := ih xt ys
        exact ⟨List.Sublist.cons₂ x h.1, List.Sublist.cons x h.2⟩
    | false =>
      cases ys with
      | nil =>
        exact ⟨List.Sublist.refl _, List.nil_sublist _⟩
      | cons y yt =>
        have h := ih xs yt
        exact ⟨List.Sublist.cons y h.1, List.Sublist.cons₂ y h.2⟩

/-- The main loop run call returns its state unchanged once quit has been
requested: no further inbound command is dispatched. -/
theorem main_loop_run_of_quit (st : WorkerState) (cs : List Cmd)
    (h : st.quit = true) : main_loop_run st cs = st := by
  cases cs with
  | nil => rfl
  | cons c cs => simp [main_loop_run, h]

/-- The attached callback ignores every inbound command other than
Terminate. -/
theorem pw_callback_of_ne (st : WorkerState) (c : Cmd)
    (h : c ≠ Cmd.Terminate) : pw_callback st c = st := by
  cases c <;> simp_all [pw_callback]

/-- Running the main loop from a non-quit state over an inbound stream
containing a Terminate dispatches commands up to the first Terminate
(each ignored), then quits having sent exactly one IsDown. -/
theorem main_loop_run_terminate (cs : List Cmd) :
    ∀ st : WorkerState, st.quit = false → Cmd.Terminate ∈ cs →
      main_loop_run st cs =
        { quit := true, outbox := st.outbox ++ [Cmd.IsDown] } := by
  induction cs with
  | nil =>
    intro st _ hmem
    cases hmem
  | cons c cs ih =>
    intro st hq hmem
    show (if st.quit then st else main_loop_run (pw_callback st c) cs) = _
    rw [hq]
    simp only [Bool.false_eq_true, if_false]
    by_cases hc : c = Cmd.Terminate
    · subst hc
      rw [main_loop_run_of_quit _ _ rfl]
      rfl
    · rw [pw_callback_of_ne st c hc]
      rcases List.mem_cons.mp hmem with h1 | h2
      · exact absurd h1.symm hc
      · exact ih st hq h2

/-- When the inbound control stream contains at least one Terminate, the
full mailbox output of the worker thread is IsUp followed by a single
IsDown. -/
theorem worker_terminate_outbox (cs : List Cmd)
    (h : Cmd.Terminate ∈ cs) : worker cs = [Cmd.IsUp, Cmd.IsDown] := by
  unfold worker
  rw [main_loop_run_terminate cs _ rfl h]
  rfl

/-- C4: for every inbound control stream containing at least one
Terminate (in particular two), the worker thread sends exactly one
IsDown on the mailbox, and IsDown is the last message it ever sends. -/
theorem c4_terminate_single_isdown (cs : List Cmd)
    (h : Cmd.Terminate ∈ cs) :
    (worker cs).count Cmd.IsDown = 1 ∧
    (worker cs).getLast? = some Cmd.IsDown := by
  rw [worker_terminate_outbox cs h]
  exact ⟨by decide, rfl⟩

/-- C4 witness: two Terminate commands yield one IsDown, sent last. -/
theorem c4_terminate_single_isdown_witness :
    Cmd.Terminate ∈ ([Cmd.Terminate, Cmd.Terminate] : List Cmd) ∧
    ((worker [Cmd.Terminate, Cmd.Terminate]).count Cmd.IsDown = 1 ∧
     (worker [Cmd.Terminate, Cmd.Terminate]).getLast? =
       some Cmd.IsDown) :=
  ⟨by decide,
   c4_terminate_single_isdown [Cmd.Terminate, Cmd.Terminate] (by decide)⟩

/-- With at least two receivers, combine_multiple_receivers reaches
neither the panic arm nor a failing match and returns a merged
receiver. -/
theorem combine_multiple_some_of_two_le :
    ∀ (n : Nat) (rs : List Recv), rs.length ≤ n → 2 ≤ rs.length →
      (combine_multiple_receivers rs).isSome = true := by
  intro n
  induction n with
  | zero =>
    intro rs hlen h2
    omega
  | succ n ih =>
    intro rs hlen h2
    rw [combine_multiple_receivers]
    rw [dif_neg (by omega)]
    by_cases h2eq : rs.length = 2
    · rw [if_pos h2eq]
      match rs, h2eq with
      | a :: b :: t, _ => rfl
    · rw [if_neg h2eq]
      have hne : rs ≠ [] := by
        intro hnil
        rw [hnil] at h2
        simp at h2
      obtain ⟨l, hl⟩ :=
        Option.isSome_iff_exists.mp (List.getLast?_isSome.mpr hne)
      have hdrop : (combine_multiple_receivers rs.dropLast).isSome = true := by
        apply ih rs.dropLast
        · simp [List.length_dropLast]
          omega
        · simp [List.length_dropLast]
          omega
      obtain ⟨r, hr⟩ := Option.isSome_iff_exists.mp hdrop
      rw [hl, hr]
      rfl

/-- C10: combine_multiple_receivers panics (none) exactly when it is
handed fewer than two receivers; with two or more receivers the panic
arm is unreachable and a merged receiver is returned. -/
theorem c10_combine_multiple_none_iff (rs : List Recv) :
    combine_multiple_receivers rs = none ↔ rs.length < 2 := by
  constructor
  · intro h
    by_contra hlt
    have hs := combine_multiple_some_of_two_le rs.length rs le_rfl (by omega)
    rw [h] at hs
    simp at hs
  · intro h
    rw [combine_multiple_receivers]
    rw [dif_pos h]

end Rustui
